import Mathlib

/-!
Verification of the `IncrementalTrainer` component of the yolov8n-train-pipeline
repository (`scripts/incremental_train.py`), shallowly embedded in Lean 4.

File-system interactions are embedded explicitly: a dataset directory is a list
of files (relative path, text content, readability flag); `pathlib.Path.glob`
is modelled as a filter over that list (Python's `glob` yields nothing for a
missing directory and suppresses unreadable directories, so a nonexistent
dataset directory is the dataset with no files); reading an unreadable file
fails with an `IOError`-kind error.  Fallible Python code is embedded with
`Except`.  Floating-point arithmetic on metric values and change ratios is
embedded with `ℚ` (exact in the integer ranges the program manipulates).
-/

namespace IncrementalTrain

/-! ### MD5 (model of Python's `hashlib.md5`)

`get_dataset_hash` digests the concatenated label-file bytes with MD5 and keeps
the first 8 hex characters.  We embed MD5 executably over `Nat` with explicit
reduction modulo `2^32`. -/

namespace MD5

/-- Reduce modulo `2^32` (32-bit word arithmetic). -/
def m32 (x : Nat) : Nat := x % 4294967296

/-- All-ones 32-bit mask, used for bitwise complement. -/
def mask32 : Nat := 4294967295

/-- Rotate a 32-bit word left by `s` bits. -/
def rotl (x s : Nat) : Nat := m32 ((x <<< s) ||| (x >>> (32 - s)))

/-- Per-round left-rotation amounts. -/
def sTable : List Nat :=
  [7, 12, 17, 22, 7, 12, 17, 22, 7, 12, 17, 22, 7, 12, 17, 22,
   5, 9, 14, 20, 5, 9, 14, 20, 5, 9, 14, 20, 5, 9, 14, 20,
   4, 11, 16, 23, 4, 11, 16, 23, 4, 11, 16, 23, 4, 11, 16, 23,
   6, 10, 15, 21, 6, 10, 15, 21, 6, 10, 15, 21, 6, 10, 15, 21]

/-- Round constants `⌊2^32·|sin(i+1)|⌋`. -/
def kTable : List Nat :=
  [0xd76aa478, 0xe8c7b756, 0x242070db, 0xc1bdceee,
   0xf57c0faf, 0x4787c62a, 0xa8304613, 0xfd469501,
   0x698098d8, 0x8b44f7af, 0xffff5bb1, 0x895cd7be,
   0x6b901122, 0xfd987193, 0xa679438e, 0x49b40821,
   0xf61e2562, 0xc040b340, 0x265e5a51, 0xe9b6c7aa,
   0xd62f105d, 0x02441453, 0xd8a1e681, 0xe7d3fbc8,
   0x21e1cde6, 0xc33707d6, 0xf4d50d87, 0x455a14ed,
   0xa9e3e905, 0xfcefa3f8, 0x676f02d9, 0x8d2a4c8a,
   0xfffa3942, 0x8771f681, 0x6d9d6122, 0xfde5380c,
   0xa4beea44, 0x4bdecfa9, 0xf6bb4b60, 0xbebfbc70,
   0x289b7ec6, 0xeaa127fa, 0xd4ef3085, 0x04881d05,
   0xd9d4d039, 0xe6db99e5, 0x1fa27cf8, 0xc4ac5665,
   0xf4292244, 0x432aff97, 0xab9423a7, 0xfc93a039,
   0x655b59c3, 0x8f0ccc92, 0xffeff47d, 0x85845dd1,
   0x6fa87e4f, 0xfe2ce6e0, 0xa3014314, 0x4e0811a1,
   0xf7537e82, 0xbd3af235, 0x2ad7d2bb, 0xeb86d391]

/-- One of the 64 MD5 rounds on state `(a, b, c, d)` with message words `M`. -/
def step (M : List Nat) (st : Nat × Nat × Nat × Nat) (i : Nat) : Nat × Nat × Nat × Nat :=
  let a := st.1
  let b := st.2.1
  let c := st.2.2.1
  let d := st.2.2.2
  let fg : Nat × Nat :=
    if i < 16 then ((b &&& c) ||| ((b ^^^ mask32) &&& d), i)
    else if i < 32 then ((d &&& b) ||| ((d ^^^ mask32) &&& c), (5 * i + 1) % 16)
    else if i < 48 then (b ^^^ c ^^^ d, (3 * i + 5) % 16)
    else (c ^^^ (b ||| (d ^^^ mask32)), (7 * i) % 16)
  let f := m32 (fg.1 + a + kTable.getD i 0 + M.getD fg.2 0)
  (d, m32 (b + rotl f (sTable.getD i 0)), b, c)

/-- Digest one 64-byte chunk. -/
def processChunk (st : Nat × Nat × Nat × Nat) (chunk : List Nat) : Nat × Nat × Nat × Nat :=
  let M := (List.range 16).map fun g =>
    chunk.getD (4 * g) 0 + 256 * chunk.getD (4 * g + 1) 0 +
      65536 * chunk.getD (4 * g + 2) 0 + 16777216 * chunk.getD (4 * g + 3) 0
  let r := (List.range 64).foldl (step M) st
  (m32 (st.1 + r.1), m32 (st.2.1 + r.2.1), m32 (st.2.2.1 + r.2.2.1), m32 (st.2.2.2 + r.2.2.2))

/-- Digest `n` consecutive 64-byte chunks of `l`. -/
def processAll : Nat → Nat × Nat × Nat × Nat → List Nat → Nat × Nat × Nat × Nat
  | 0, st, _ => st
  | n + 1, st, l => processAll n (processChunk st (l.take 64)) (l.drop 64)

/-- Little-endian length suffix: `8·len mod 2^64` as eight bytes. -/
def lenBytes (len : Nat) : List Nat :=
  (List.range 8).map fun i => ((8 * len) >>> (8 * i)) % 256

/-- MD5 padding: `0x80`, zeros to 56 mod 64, then the bit length. -/
def pad (msg : List Nat) : List Nat :=
  let zeros := (120 - ((msg.length + 1) % 64)) % 64
  msg ++ [128] ++ List.replicate zeros 0 ++ lenBytes msg.length

/-- Hex digit character for `n < 16` (lowercase, as Python's `hexdigest`). -/
def hexDigit (n : Nat) : Char :=
  if n < 10 then Char.ofNat (48 + n) else Char.ofNat (87 + n)

/-- Two lowercase hex characters of one byte. -/
def byteHex (b : Nat) : List Char := [hexDigit (b / 16), hexDigit (b % 16)]

/-- Little-endian bytes of a 32-bit word. -/
def wordLEBytes (w : Nat) : List Nat :=
  [w % 256, (w >>> 8) % 256, (w >>> 16) % 256, (w >>> 24) % 256]

/-- Full MD5 hex digest of a byte sequence (Python `hashlib.md5(b).hexdigest()`). -/
def md5hex (msg : List Nat) : String :=
  let p := pad msg
  let st := processAll (p.length / 64) (0x67452301, 0xefcdab89, 0x98badcfe, 0x10325476) p
  String.mk
    (((wordLEBytes st.1 ++ wordLEBytes st.2.1 ++ wordLEBytes st.2.2.1 ++
        wordLEBytes st.2.2.2).map byteHex).flatten)

/-- First 8 hex characters of the digest (`hexdigest()[:8]` in the source). -/
def md5hex8 (msg : List Nat) : String := (md5hex msg).take 8

end MD5

/-! ### File-system model of a dataset directory -/

/-- Error kinds of the embedded Python code, following the spec's taxonomy
(§7): `ioError` for `OSError`/`IOError`, `keyError`/`valueError`/`indexError`
for the corresponding Python exceptions raised by lookups and parses,
`notFoundError` for a failed version lookup (`StopIteration`),
`insufficientHistoryError` for a comparison with fewer than two versions, and
`externalToolError` for a failing external trainer invocation. -/
inductive PErr
  | ioError
  | keyError
  | valueError
  | indexError
  | notFoundError
  | insufficientHistoryError
  | externalToolError
deriving DecidableEq, Repr

/-- One file of a dataset directory: relative path (e.g.
`"labels/train/a.txt"`), text content, and whether reading it succeeds. -/
structure FileEntry where
  path : String
  content : String
  readable : Bool := true
deriving DecidableEq, Repr

/-- A dataset directory, as the list of files `glob` can enumerate (in
file-system enumeration order).  A nonexistent or unreadable directory is the
dataset with no files, since `pathlib.Path.glob` yields nothing there. -/
structure Dataset where
  files : List FileEntry
deriving DecidableEq, Repr

/-- Bytes of a file's content (label files are ASCII, so code points coincide
with the UTF-8 bytes `Path.read_bytes` returns). -/
def strBytes (s : String) : List Nat := s.data.map Char.toNat

/-- Python `str.startswith`, over the character lists of the two strings. -/
def strStartsWith (pre p : String) : Bool := List.isPrefixOf pre.data p.data

/-- Python `str.endswith`, over the character lists of the two strings. -/
def strEndsWith (suf p : String) : Bool :=
  List.isPrefixOf suf.data.reverse p.data.reverse

/-- Predicate for the `glob("labels/**/*.txt")` pattern of
`get_dataset_hash` (any depth below `labels/`). -/
def isLabelTxt (p : String) : Bool :=
  strStartsWith "labels/" p && strEndsWith ".txt" p

/-- `p` is a direct child of the directory prefix `pre`. -/
def isDirectChild (pre p : String) : Bool :=
  strStartsWith pre p && (p.data.drop pre.data.length ≠ []) &&
    !(p.data.drop pre.data.length).contains '/'

/-- Predicate for `(dataset_dir / "images/train").glob("*")`. -/
def isTrainImage (p : String) : Bool := isDirectChild "images/train/" p

/-- Predicate for `(dataset_dir / "labels/train").glob("*.txt")`. -/
def isTrainLabelTxt (p : String) : Bool :=
  isDirectChild "labels/train/" p && strEndsWith ".txt" p

/-- Equality of `Except` results is decidable (used to evaluate the embedded
functions on concrete inputs). -/
instance instDecEqExcept {e a : Type _} [DecidableEq e] [DecidableEq a] :
    DecidableEq (Except e a) := fun x y =>
  match x, y with
  | .ok u, .ok v =>
    if h : u = v then isTrue (by rw [h]) else isFalse fun hc => h (Except.ok.inj hc)
  | .error u, .error v =>
    if h : u = v then isTrue (by rw [h]) else isFalse fun hc => h (Except.error.inj hc)
  | .ok _, .error _ => isFalse fun hc => Except.noConfusion hc
  | .error _, .ok _ => isFalse fun hc => Except.noConfusion hc

/-- The `sorted(dataset_dir.glob("labels/**/*.txt"))` of `get_dataset_hash`:
a stable sort by path, as Python's `sorted` (insertion sort keeps every
concrete evaluation kernel-reducible). -/
def labelPaths (ds : Dataset) : List String :=
  List.insertionSort (fun a b => a ≤ b)
    ((ds.files.filter fun f => isLabelTxt f.path).map fun f => f.path)

/-- `Path.read_bytes`: the content of the file at `p`, or an `IOError` if the
file is unreadable or absent. -/
def readBytes (ds : Dataset) (p : String) : Except PErr (List Nat) :=
  match ds.files.find? fun f => f.path = p with
  | some f => if f.readable then .ok (strBytes f.content) else .error .ioError
  | none => .error .ioError

/-- `IncrementalTrainer.get_dataset_hash`: MD5 over the byte contents of all
label files visited in sorted path order, truncated to 8 hex characters. -/
def get_dataset_hash (ds : Dataset) : Except PErr String :=
  match (labelPaths ds).mapM (readBytes ds) with
  | .ok contents => .ok (MD5.md5hex8 contents.flatten)
  | .error e => .error e

/-! ### Python string primitives used by `get_dataset_stats` -/

/-- The whitespace characters Python's `str.strip()` and `str.split()` use
(ASCII subset, which covers YOLO label files). -/
def pySpace (c : Char) : Bool :=
  c = ' ' || c = '\t' || c = '\n' || c = '\r' || c = '\x0b' || c = '\x0c'

/-- Python `str.strip()` on a character list. -/
def pyStripChars (l : List Char) : List Char :=
  ((l.dropWhile pySpace).reverse.dropWhile pySpace).reverse

/-- Python `str.split(sep)` for a one-character separator, generalized to a
character predicate: keeps empty pieces, so splitting the empty text yields
the singleton `[[]]` (Python's `"".split(sep) == [""]`). -/
def splitWhen (p : Char → Bool) : List Char → List (List Char)
  | [] => [[]]
  | c :: cs =>
    if p c then [] :: splitWhen p cs
    else
      match splitWhen p cs with
      | r :: rs => (c :: r) :: rs
      | [] => [[c]]

/-- Python `read_text().strip().split("\n")`: note that on an empty file this
yields a singleton list (one empty line), never the empty list. -/
def pyLines (s : String) : List (List Char) :=
  splitWhen (fun c => c = '\n') (pyStripChars s.data)

/-- Python `str.split()` with no argument: whitespace-separated tokens, with
no empty tokens. -/
def pyTokens (l : List Char) : List (List Char) :=
  (splitWhen pySpace l).filter fun t => t ≠ []

/-- Python `int(s)`: optional sign followed by digits, after stripping
whitespace; `none` models the `ValueError` raise. -/
def pyInt? (l : List Char) : Option Int :=
  let t := pyStripChars l
  let neg := t.take 1 = ['-']
  let core := if neg || t.take 1 = ['+'] then t.drop 1 else t
  if core ≠ [] && core.all Char.isDigit then
    some ((if neg then -1 else 1) *
      (core.foldl (fun a c => 10 * a + (c.toNat - 48)) 0 : Nat))
  else none

/-! ### Dataset statistics -/

/-- The dictionary built by `get_dataset_stats`.  `class_distribution` is the
insertion-ordered Python dict from class id to annotation count. -/
structure Stats where
  total_images : Nat
  total_annotations : Nat
  class_distribution : List (Int × Nat)
deriving DecidableEq, Repr

/-- `stats["class_distribution"][class_id] = ...get(class_id, 0) + 1`:
increment an existing key in place or append a new one. -/
def bumpClass (d : List (Int × Nat)) (c : Int) : List (Int × Nat) :=
  match d.find? fun e => e.1 = c with
  | some _ => d.map fun e => if e.1 = c then (e.1, e.2 + 1) else e
  | none => d ++ [(c, 1)]

/-- The inner `for line in lines` loop of `get_dataset_stats`: every non-empty
line has its leading token parsed as the class id (`int(line.split()[0])`);
a whitespace-only line raises `IndexError`, a non-numeric token `ValueError`. -/
def procLines (dist : List (Int × Nat)) (lines : List (List Char)) :
    Except PErr (List (Int × Nat)) :=
  lines.foldlM
    (fun d line =>
      if line = [] then pure d
      else
        match (pyTokens line).head? with
        | none => .error .indexError
        | some tok =>
          match pyInt? tok with
          | none => .error .valueError
          | some c => pure (bumpClass d c))
    dist

/-- `IncrementalTrainer.get_dataset_stats`: image count is the number of
entries in `images/train`; each label file in `labels/train` contributes
`len(read_text().strip().split("\n"))` annotations. -/
def get_dataset_stats (ds : Dataset) : Except PErr Stats :=
  match
    (ds.files.filter fun f => isTrainLabelTxt f.path).foldlM
      (fun (acc : Nat × List (Int × Nat)) f =>
        if f.readable then
          match procLines acc.2 (pyLines f.content) with
          | .ok d => .ok (acc.1 + (pyLines f.content).length, d)
          | .error e => .error e
        else Except.error PErr.ioError)
      (0, [])
  with
  | .ok res =>
    .ok { total_images := (ds.files.filter fun f => isTrainImage f.path).length,
          total_annotations := res.1,
          class_distribution := res.2 }
  | .error e => .error e

/-! ### Version records, configuration, world -/

/-- The training strategies of the selector. -/
inductive Strategy
  | new
  | skip
  | retrain
  | incremental
deriving DecidableEq, Repr

/-- The dictionary returned by `determine_training_strategy`.  The `skip`
result carries no checkpoint or epoch entries (defaults below). -/
structure StrategyInfo where
  strategy : Strategy
  checkpoint : Option String := none
  epochs : Nat := 0
deriving DecidableEq, Repr

/-- The best-epoch metrics dictionary built by `extract_metrics` when
`results.csv` is present (`recallMetric` embeds the dict key `"recall"`,
whose natural Lean name is taken by a tactic command). -/
structure MetricsFull where
  best_epoch : Nat
  mAP50 : ℚ
  mAP50_95 : ℚ
  precision : ℚ
  recallMetric : ℚ
  fitness : ℚ
deriving DecidableEq, Repr

/-- A metrics dictionary: `none` is the empty dict `{}`. -/
abbrev Metrics := Option MetricsFull

/-- The hyperparameters recorded under `training_args`. -/
structure TrainingArgs where
  epochs : Nat
  batch_size : Nat
  img_size : Nat
deriving DecidableEq, Repr

/-- One entry of the version store (`versions.json`), as built by
`train_model`. -/
structure VersionRecord where
  version : String
  timestamp : String
  strategy : Strategy
  parent_version : Option String
  checkpoint_path : String
  dataset_hash : String
  dataset_stats : Stats
  training_args : TrainingArgs
  metrics : Metrics
deriving DecidableEq, Repr

/-- The `training:` section of `configs/pipeline.yaml`; `none` models an
absent key, read through `.get(key, default)`. -/
structure TrainingConfig where
  initial_epochs : Option Nat := none
  incremental_epochs : Option Nat := none
  img_size : Option Nat := none
  batch_size : Option Nat := none
  early_stopping_patience : Option Nat := none
deriving DecidableEq, Repr

/-- The loaded pipeline configuration. -/
structure Config where
  training : TrainingConfig
deriving DecidableEq, Repr

/-- The file-system paths that exist outside the dataset directory (used by
`Path.exists` checks on checkpoint paths). -/
structure World where
  existing : List String
deriving DecidableEq, Repr

/-! ### Strategy selection -/

/-- `IncrementalTrainer.get_latest_checkpoint`: the latest record's
checkpoint path if the store is non-empty and that path exists, else `None`. -/
def get_latest_checkpoint (w : World) (versions : List VersionRecord) :
    Option String :=
  match versions.getLast? with
  | none => none
  | some latest =>
    if latest.checkpoint_path ∈ w.existing then some latest.checkpoint_path
    else none

/-- `abs(total_new - total_old) / max(total_old, 1)` over exact rationals. -/
def change_ratio (total_old total_new : Nat) : ℚ :=
  (((Int.ofNat total_new - Int.ofNat total_old).natAbs : ℚ)) / ((max total_old 1 : Nat) : ℚ)

/-- `IncrementalTrainer.determine_training_strategy`. -/
def determine_training_strategy (w : World) (cfg : Config)
    (versions : List VersionRecord) (ds : Dataset) : Except PErr StrategyInfo :=
  match get_dataset_hash ds with
  | .error e => .error e
  | .ok dataset_hash =>
    match versions.getLast? with
    | none =>
      .ok { strategy := .new, checkpoint := some "yolov8n.pt",
            epochs := cfg.training.initial_epochs.getD 50 }
    | some last_version =>
      if last_version.dataset_hash = dataset_hash then
        .ok { strategy := .skip }
      else
        match get_dataset_stats ds with
        | .error e => .error e
        | .ok new_stats =>
          if change_ratio last_version.dataset_stats.total_annotations
              new_stats.total_annotations > 1 / 2 then
            .ok { strategy := .retrain, checkpoint := some "yolov8n.pt",
                  epochs := cfg.training.initial_epochs.getD 50 }
          else
            .ok { strategy := .incremental,
                  checkpoint := get_latest_checkpoint w versions,
                  epochs := cfg.training.incremental_epochs.getD 20 }

/-! ### Metrics extraction (`extract_metrics`) -/

/-- A parsed `results.csv` as pandas sees it: named columns of numbers. -/
abbrev Csv := List (String × List ℚ)

/-- pandas `Series.idxmax`: index of the first occurrence of the maximum;
`none` models the raise on an empty series. -/
def idxmax : List ℚ → Option Nat
  | [] => none
  | x :: xs =>
    match idxmax xs with
    | none => some 0
    | some j => if x < xs.getD j 0 then some (j + 1) else some 0

/-- `df[name]` / `df.loc[_, name]` column lookup: raises `KeyError` when the
column is absent. -/
def colGet (df : Csv) (name : String) : Except PErr (List ℚ) :=
  match df.lookup name with
  | some c => .ok c
  | none => .error .keyError

/-- `IncrementalTrainer.extract_metrics`: an absent `results.csv` yields the
empty dict; a present one is indexed by its `fitness` column (first row of
maximal fitness) and the four metric columns, any absent column raising
`KeyError`. -/
def extract_metrics (csv? : Option Csv) : Except PErr Metrics :=
  match csv? with
  | none => .ok none
  | some df =>
    match colGet df "fitness" with
    | .error e => .error e
    | .ok fit =>
      match idxmax fit with
      | none => .error .valueError
      | some best =>
        match colGet df "metrics/mAP50", colGet df "metrics/mAP50-95",
            colGet df "metrics/precision", colGet df "metrics/recall" with
        | .ok m50, .ok m5095, .ok prec, .ok rcl =>
          .ok (some
            { best_epoch := best + 1,
              mAP50 := m50.getD best 0,
              mAP50_95 := m5095.getD best 0,
              precision := prec.getD best 0,
              recallMetric := rcl.getD best 0,
              fitness := fit.getD best 0 })
        | .error e, _, _, _ => .error e
        | _, .error e, _, _ => .error e
        | _, _, .error e, _ => .error e
        | _, _, _, .error e => .error e

/-! ### The training orchestrator (`train_model`) -/

/-- The persistent state `train_model` manipulates: the in-memory `versions`
list, the persisted `versions.json` manifest (`none` while the file does not
exist), the version directories created under `models/versions`, and the
`latest` symlink target. -/
structure TrainerState where
  versions : List VersionRecord
  manifest : Option (List VersionRecord)
  versionDirs : List String
  latestLink : Option String
deriving DecidableEq, Repr

/-- The orchestrator state before any training run: empty store, no manifest
file, no version directories, no `latest` link. -/
def emptyTrainerState : TrainerState :=
  { versions := [], manifest := none, versionDirs := [], latestLink := none }

/-- The external world of one training invocation: the wall clock
(`datetime.now()`), whether the `YOLO(...)`/`model.train(...)` calls succeed,
whether the `train/weights/best.pt` artifact exists for `shutil.copy`, and the
`results.csv` the trainer produced (`none` when absent). -/
structure TrainEnv where
  timestamp : String
  trainOk : Bool
  bestExists : Bool
  resultsCsv : Option Csv
deriving DecidableEq, Repr

/-- `mkdir(exist_ok=True)` on a version directory. -/
def addDir (dirs : List String) (d : String) : List String :=
  if d ∈ dirs then dirs else dirs ++ [d]

/-- `IncrementalTrainer.train_model`: returns the produced (or reused) version
identifier together with the final persistent state.  An error models the
propagated Python exception; the state it is paired with is the state at the
moment of the raise. -/
def train_model (cfg : Config) (env : TrainEnv) (st : TrainerState)
    (si : StrategyInfo) (ds : Dataset) : Except PErr String × TrainerState :=
  if si.strategy = .skip then
    match st.versions.getLast? with
    | some last => (.ok last.version, st)
    | none => (.error .indexError, st)
  else
    let version_name := "v" ++ toString (st.versions.length + 1)
    let st1 : TrainerState :=
      { st with versionDirs := addDir st.versionDirs version_name }
    if !env.trainOk then (.error .externalToolError, st1)
    else if !env.bestExists then (.error .ioError, st1)
    else
      match get_dataset_hash ds with
      | .error e => (.error e, st1)
      | .ok dhash =>
        match get_dataset_stats ds with
        | .error e => (.error e, st1)
        | .ok dstats =>
          match extract_metrics env.resultsCsv with
          | .error e => (.error e, st1)
          | .ok metrics =>
            let vinfo : VersionRecord :=
              { version := version_name,
                timestamp := env.timestamp,
                strategy := si.strategy,
                parent_version := st.versions.getLast?.map fun v => v.version,
                checkpoint_path := "models/versions/" ++ version_name ++ "/best.pt",
                dataset_hash := dhash,
                dataset_stats := dstats,
                training_args :=
                  { epochs := si.epochs,
                    batch_size := cfg.training.batch_size.getD 16,
                    img_size := cfg.training.img_size.getD 640 },
                metrics := metrics }
            let versions2 := st.versions ++ [vinfo]
            (.ok version_name,
             { versions := versions2,
               manifest := some versions2,
               versionDirs := st1.versionDirs,
               latestLink := some version_name })

/-- One orchestrator invocation: the strategy-selector inputs and external
trainer outcome of a single `train_model` call. -/
structure RunInput where
  env : TrainEnv
  si : StrategyInfo
  ds : Dataset
deriving DecidableEq, Repr

/-- Sequential `train_model` invocations; stops at the first propagated
exception. -/
def runAll (cfg : Config) : List RunInput → TrainerState → Except PErr TrainerState
  | [], st => .ok st
  | r :: rs, st =>
    match train_model cfg r.env st r.si r.ds with
    | (.ok _, st') => runAll cfg rs st'
    | (.error e, _) => .error e

/-! ### Version comparison (`compare_versions`) -/

/-- One printed row of the comparison report. -/
structure MetricRow where
  name : String
  v1_val : ℚ
  v2_val : ℚ
  diff : ℚ
  diff_pct : ℚ
deriving DecidableEq, Repr

/-- The comparison report `compare_versions` prints. -/
structure CompareResult where
  version1 : String
  version2 : String
  rows : List MetricRow
  annotation_diff : Int
deriving DecidableEq, Repr

/-- `info["metrics"].get(name, 0)`. -/
def metricGet (m : Metrics) (name : String) : ℚ :=
  match m with
  | none => 0
  | some mf =>
    if name = "mAP50" then mf.mAP50
    else if name = "mAP50-95" then mf.mAP50_95
    else if name = "precision" then mf.precision
    else if name = "recall" then mf.recallMetric
    else 0

/-- `IncrementalTrainer.compare_versions`.  Omitted arguments default to the
two most recent versions; the early `print`-and-`return` on fewer than two
stored versions is the `InsufficientHistoryError` failure of the spec, and a
failing `next(...)` lookup (`StopIteration`) is `NotFoundError`. -/
def compare_versions (versions : List VersionRecord)
    (v1? v2? : Option String) : Except PErr CompareResult :=
  let version1 : Option String :=
    match v1? with
    | some v => some v
    | none =>
      if 2 ≤ versions.length then
        (versions[versions.length - 2]?).map fun v => v.version
      else none
  let version2 : Option String :=
    match v2? with
    | some v => some v
    | none => versions.getLast?.map fun v => v.version
  match version1, version2 with
  | some v1, some v2 =>
    match versions.find? (fun v => v.version = v1),
        versions.find? (fun v => v.version = v2) with
    | some i1, some i2 =>
      .ok { version1 := v1,
            version2 := v2,
            rows := ["mAP50", "mAP50-95", "precision", "recall"].map fun name =>
              let a := metricGet i1.metrics name
              let b := metricGet i2.metrics name
              { name := name, v1_val := a, v2_val := b, diff := b - a,
                diff_pct := if a > 0 then (b - a) / a * 100 else 0 },
            annotation_diff :=
              (i2.dataset_stats.total_annotations : Int) -
                (i1.dataset_stats.total_annotations : Int) }
    | _, _ => .error .notFoundError
  | _, _ => .error .insufficientHistoryError

/-! ### Theorems -/

/-- A non-`none` `getLast?` means the list is non-empty. -/
theorem getLast?_some_ne_nil {α : Type _} {l : List α} {a : α}
    (h : l.getLast? = some a) : l ≠ [] := by
  intro hnil
  subst hnil
  simp at h

/-- Claim C1: `determine_training_strategy` returns `skip` iff the store is
non-empty and the computed fingerprint equals the latest record's stored
`dataset_hash`; it returns `new` iff the store is empty; otherwise it returns
`retrain` exactly when the change ratio `abs(new_total - old_total) /
max(old_total, 1)` is strictly greater than `1/2` and `incremental` when the
ratio is at most `1/2` (so the `0.5` boundary selects `incremental`). -/
theorem claim1_strategy_selector (w : World) (cfg : Config)
    (vs : List VersionRecord) (ds : Dataset) (h : String) (stats : Stats)
    (hh : get_dataset_hash ds = .ok h) (hs : get_dataset_stats ds = .ok stats) :
    ∃ si, determine_training_strategy w cfg vs ds = .ok si ∧
      (si.strategy = .skip ↔
        ∃ last, vs.getLast? = some last ∧ last.dataset_hash = h) ∧
      (si.strategy = .new ↔ vs = []) ∧
      ∀ last, vs.getLast? = some last → last.dataset_hash ≠ h →
        (1 / 2 <
            change_ratio last.dataset_stats.total_annotations
              stats.total_annotations →
          si.strategy = .retrain) ∧
        (change_ratio last.dataset_stats.total_annotations
              stats.total_annotations ≤ 1 / 2 →
          si.strategy = .incremental) := by
  simp only [determine_training_strategy, hh]
  cases hl : vs.getLast? with
  | none =>
    have hnil : vs = [] := by
      cases vs with
      | nil => rfl
      | cons a l => simp at hl
    refine ⟨_, rfl, ?_, ?_, ?_⟩
    · simp [hl]
    · simp [hnil]
    · intro last hlast
      simp at hlast
  | some last =>
    have hne : vs ≠ [] := getLast?_some_ne_nil hl
    dsimp only
    by_cases heq : last.dataset_hash = h
    · rw [if_pos heq]
      refine ⟨_, rfl, ?_, ?_, ?_⟩
      · simp [hl, heq]
      · simp [hne]
      · intro last' hlast' hdiff
        cases hlast'
        exact absurd heq hdiff
    · rw [if_neg heq]
      simp only [hs]
      by_cases hr :
          1 / 2 <
            change_ratio last.dataset_stats.total_annotations
              stats.total_annotations
      · rw [if_pos hr]
        refine ⟨_, rfl, ?_, ?_, ?_⟩
        · simp [heq]
        · simp [hne]
        · intro last' hlast' hdiff
          cases hlast'
          exact ⟨fun _ => rfl, fun hle => absurd hr (not_lt.mpr hle)⟩
      · rw [if_neg hr]
        refine ⟨_, rfl, ?_, ?_, ?_⟩
        · simp [heq]
        · simp [hne]
        · intro last' hlast' hdiff
          cases hlast'
          exact ⟨fun hgt => absurd hgt hr, fun _ => rfl⟩

/-- Statistics of the dataset with no files. -/
def demoStats0 : Stats :=
  { total_images := 0, total_annotations := 0, class_distribution := [] }

/-- A concrete stored version record whose fingerprint is that of the empty
dataset. -/
def demoRec1 : VersionRecord :=
  { version := "v1", timestamp := "t", strategy := .new,
    parent_version := none,
    checkpoint_path := "models/versions/v1/best.pt",
    dataset_hash := "d41d8cd9",
    dataset_stats := demoStats0,
    training_args := { epochs := 50, batch_size := 16, img_size := 640 },
    metrics := none }

set_option maxRecDepth 8000 in
/-- Witness for C1 at a concrete store and dataset: one stored version whose
hash matches the (empty) dataset's fingerprint. -/
theorem claim1_strategy_selector_witness :
    ∃ si,
      determine_training_strategy ⟨[]⟩ ⟨{}⟩ [demoRec1] ⟨[]⟩ = .ok si ∧
      (si.strategy = .skip ↔
        ∃ last, [demoRec1].getLast? = some last ∧
          last.dataset_hash = "d41d8cd9") ∧
      (si.strategy = .new ↔ [demoRec1] = []) ∧
      ∀ last, [demoRec1].getLast? = some last →
        last.dataset_hash ≠ "d41d8cd9" →
        (1 / 2 <
            change_ratio last.dataset_stats.total_annotations
              demoStats0.total_annotations →
          si.strategy = .retrain) ∧
        (change_ratio last.dataset_stats.total_annotations
              demoStats0.total_annotations ≤ 1 / 2 →
          si.strategy = .incremental) :=
  claim1_strategy_selector ⟨[]⟩ ⟨{}⟩ [demoRec1] ⟨[]⟩ "d41d8cd9" demoStats0
    (by decide) (by decide)

/-- A dataset with one image and one empty label file. -/
def emptyLabelDataset : Dataset :=
  ⟨[{ path := "images/train/a.jpg", content := "" },
    { path := "labels/train/a.txt", content := "" }]⟩

/-- Claim C2 (code-bug evidence): on a dataset whose single label file is
empty, `get_dataset_stats` reports `total_annotations = 1`, not `0`, because
`"".strip().split("\n")` is `[""]` in Python, a list of length one; the image
count is `1` (the label file does not raise it), and the empty line is not
counted in the class distribution. -/
theorem claim2_empty_label_file_counts_one :
    get_dataset_stats emptyLabelDataset =
      .ok { total_images := 1, total_annotations := 1,
            class_distribution := [] } := by decide

/-- Claim C4: with a non-empty store, a `skip` run returns the latest
record's version identifier and leaves the entire persistent state — version
store, manifest, version directories, `latest` link — exactly as it was. -/
theorem claim4_skip_no_side_effects (cfg : Config) (env : TrainEnv)
    (st : TrainerState) (si : StrategyInfo) (ds : Dataset)
    (hskip : si.strategy = .skip) (hne : st.versions ≠ []) :
    ∃ last, st.versions.getLast? = some last ∧
      train_model cfg env st si ds = (.ok last.version, st) := by
  obtain ⟨last, hlast⟩ : ∃ a, st.versions.getLast? = some a := by
    cases hv : st.versions.getLast? with
    | none => exact absurd (List.getLast?_eq_none_iff.mp hv) hne
    | some a => exact ⟨a, rfl⟩
  refine ⟨last, hlast, ?_⟩
  unfold train_model
  rw [if_pos hskip, hlast]

/-- The state `train_model` holds when a non-`skip` run raises: only the
version directory for the attempted version has been created. -/
theorem train_model_error_state (cfg : Config) (env : TrainEnv)
    (st : TrainerState) (si : StrategyInfo) (ds : Dataset) (e : PErr)
    (st' : TrainerState) (hns : si.strategy ≠ .skip)
    (h : train_model cfg env st si ds = (.error e, st')) :
    st' = { st with
      versionDirs :=
        addDir st.versionDirs ("v" ++ toString (st.versions.length + 1)) } := by
  unfold train_model at h
  rw [if_neg hns] at h
  dsimp only at h
  split at h
  · simp only [Prod.mk.injEq] at h
    exact h.2.symm
  · split at h
    · simp only [Prod.mk.injEq] at h
      exact h.2.symm
    · split at h
      · simp only [Prod.mk.injEq] at h
        exact h.2.symm
      · split at h
        · simp only [Prod.mk.injEq] at h
          exact h.2.symm
        · split at h
          · simp only [Prod.mk.injEq] at h
            exact h.2.symm
          · simp only [Prod.mk.injEq] at h
            exact absurd h.1 (by simp)

/-- Claim C5: a non-`skip` run that fails at any step — external trainer
failure, missing best-checkpoint artifact, or any later error — leaves the
version store and the persisted manifest unmodified (no partial record). -/
theorem claim5_failure_frame (cfg : Config) (env : TrainEnv)
    (st : TrainerState) (si : StrategyInfo) (ds : Dataset) (e : PErr)
    (st' : TrainerState) (hns : si.strategy ≠ .skip)
    (h : train_model cfg env st si ds = (.error e, st')) :
    st'.versions = st.versions ∧ st'.manifest = st.manifest := by
  rw [train_model_error_state cfg env st si ds e st' hns h]
  exact ⟨rfl, rfl⟩

/-- Shape of a successful non-`skip` `train_model` run: exactly one record is
appended, carrying the next sequential identifier and the previous latest
version as parent, and the manifest is rewritten to the new store. -/
theorem train_model_ok_shape (cfg : Config) (env : TrainEnv) (st : TrainerState)
    (si : StrategyInfo) (ds : Dataset) (name : String) (st' : TrainerState)
    (hns : si.strategy ≠ .skip)
    (h : train_model cfg env st si ds = (.ok name, st')) :
    ∃ vinfo : VersionRecord,
      st'.versions = st.versions ++ [vinfo] ∧
      st'.manifest = some (st.versions ++ [vinfo]) ∧
      vinfo.version = "v" ++ toString (st.versions.length + 1) ∧
      vinfo.parent_version = st.versions.getLast?.map (fun v => v.version) ∧
      name = vinfo.version := by
  unfold train_model at h
  rw [if_neg hns] at h
  dsimp only at h
  split at h
  · simp only [Prod.mk.injEq] at h
    exact absurd h.1 (by simp)
  · split at h
    · simp only [Prod.mk.injEq] at h
      exact absurd h.1 (by simp)
    · split at h
      · simp only [Prod.mk.injEq] at h
        exact absurd h.1 (by simp)
      · split at h
        · simp only [Prod.mk.injEq] at h
          exact absurd h.1 (by simp)
        · split at h
          · simp only [Prod.mk.injEq] at h
            exact absurd h.1 (by simp)
          · simp only [Prod.mk.injEq, Except.ok.injEq] at h
            obtain ⟨h1, h2⟩ := h
            subst h1
            subst h2
            exact ⟨_, rfl, rfl, rfl, rfl, rfl⟩

/-- The linear-chain invariant of the version store: record `i` (0-based)
carries identifier `v(i+1)`; the first record has no parent and record `i>0`
has record `i-1`'s identifier as parent. -/
def versionChainOk (vs : List VersionRecord) : Prop :=
  ∀ i (hi : i < vs.length),
    vs[i].version = "v" ++ toString (i + 1) ∧
    vs[i].parent_version = (if i = 0 then none else some ("v" ++ toString i))

/-- Appending a correctly numbered and parented record preserves the chain
invariant. -/
theorem versionChainOk_append {vs : List VersionRecord} {v : VersionRecord}
    (hc : versionChainOk vs)
    (hv : v.version = "v" ++ toString (vs.length + 1))
    (hp : v.parent_version = vs.getLast?.map (fun r => r.version)) :
    versionChainOk (vs ++ [v]) := by
  intro i hi
  rw [List.length_append, List.length_singleton] at hi
  by_cases hlt : i < vs.length
  · rw [List.getElem_append_left hlt]
    exact hc i hlt
  · have hieq : i = vs.length := by omega
    rw [List.getElem_concat_length vs v i hieq]
    constructor
    · rw [hv, hieq]
    · rw [hp, hieq]
      cases hvs : vs with
      | nil => rfl
      | cons a l =>
        have hlen : 0 < vs.length := by rw [hvs]; simp
        have : vs.getLast? = some vs[vs.length - 1] := by
          rw [List.getLast?_eq_getElem?, List.getElem?_eq_getElem (by omega)]
        rw [← hvs, this]
        have hlast := (hc (vs.length - 1) (by omega)).1
        simp only [Option.map_some']
        rw [hlast]
        have : vs.length - 1 + 1 = vs.length := by omega
        rw [this, if_neg (by omega)]

/-- A successful `runAll` starting from a store satisfying the chain
invariant ends in a store satisfying it, one record longer per run, provided
no run is a `skip`. -/
theorem runAll_chain (cfg : Config) :
    ∀ (runs : List RunInput) (st st' : TrainerState),
      (∀ r ∈ runs, r.si.strategy ≠ .skip) →
      versionChainOk st.versions →
      runAll cfg runs st = .ok st' →
      versionChainOk st'.versions ∧
        st'.versions.length = st.versions.length + runs.length := by
  intro runs
  induction runs with
  | nil =>
    intro st st' _ hc hr
    cases hr
    exact ⟨hc, rfl⟩
  | cons r rs ih =>
    intro st st' hns hc hr
    unfold runAll at hr
    split at hr
    case h_1 name st1 heq =>
      obtain ⟨vinfo, hv1, _, hv3, hv4, _⟩ :=
        train_model_ok_shape cfg r.env st r.si r.ds name st1
          (hns r (List.mem_cons_self r rs)) heq
      have hc1 : versionChainOk st1.versions := by
        rw [hv1]
        exact versionChainOk_append hc hv3 hv4
      obtain ⟨hc', hlen⟩ :=
        ih st1 st' (fun x hx => hns x (List.mem_cons_of_mem r hx)) hc1 hr
      refine ⟨hc', ?_⟩
      rw [hlen, hv1, List.length_append, List.length_singleton,
        List.length_cons]
      omega
    case h_2 e heq =>
      cases hr

/-- Claim C3: `N` successful non-`skip` runs from the empty store produce a
store of length `N` whose record `i` (1-based) is `v i`, with no parent for
the first record and record `i-1`'s identifier as parent for every later
record — a linear chain. -/
theorem claim3_linear_chain (cfg : Config) (runs : List RunInput)
    (st' : TrainerState)
    (hns : ∀ r ∈ runs, r.si.strategy ≠ .skip)
    (hr : runAll cfg runs emptyTrainerState = .ok st') :
    st'.versions.length = runs.length ∧
    ∀ i (hi : i < st'.versions.length),
      st'.versions[i].version = "v" ++ toString (i + 1) ∧
      st'.versions[i].parent_version =
        (if i = 0 then none else some ("v" ++ toString i)) := by
  obtain ⟨hc, hlen⟩ :=
    runAll_chain cfg runs emptyTrainerState st' hns
      (fun i hi => by simp [emptyTrainerState] at hi) hr
  exact ⟨by simpa [emptyTrainerState] using hlen, hc⟩

/-- An external-trainer environment in which everything succeeds and no
`results.csv` is produced. -/
def demoEnv : TrainEnv :=
  { timestamp := "t", trainOk := true, bestExists := true, resultsCsv := none }

/-- One successful first-training run on the empty dataset. -/
def demoRun1 : RunInput :=
  { env := demoEnv,
    si := { strategy := .new, checkpoint := some "yolov8n.pt", epochs := 50 },
    ds := ⟨[]⟩ }

/-- The persistent state after `demoRun1` from the empty state. -/
def demoOutState : TrainerState :=
  { versions := [demoRec1], manifest := some [demoRec1],
    versionDirs := ["v1"], latestLink := some "v1" }

set_option maxRecDepth 8000 in
/-- Witness for C3: one successful non-`skip` run from the empty store yields
the singleton chain `[v1]`. -/
theorem claim3_linear_chain_witness :
    demoOutState.versions.length = [demoRun1].length ∧
    ∀ i (hi : i < demoOutState.versions.length),
      demoOutState.versions[i].version = "v" ++ toString (i + 1) ∧
      demoOutState.versions[i].parent_version =
        (if i = 0 then none else some ("v" ++ toString i)) :=
  claim3_linear_chain ⟨{}⟩ [demoRun1] demoOutState (by decide) (by decide)

/-- Witness for C4: a `skip` run on a one-record store returns `v1` and
leaves the state untouched. -/
theorem claim4_skip_no_side_effects_witness :
    ∃ last, demoOutState.versions.getLast? = some last ∧
      train_model ⟨{}⟩ demoEnv demoOutState { strategy := .skip } ⟨[]⟩ =
        (.ok last.version, demoOutState) :=
  claim4_skip_no_side_effects ⟨{}⟩ demoEnv demoOutState { strategy := .skip }
    ⟨[]⟩ (by decide) (by decide)

/-- The state after a first run whose external trainer invocation failed:
only the `v1` version directory was created. -/
def demoFailState : TrainerState :=
  { versions := [], manifest := none, versionDirs := ["v1"], latestLink := none }

/-- Witness for C5: a failing external trainer invocation leaves the store
and the manifest as they were. -/
theorem claim5_failure_frame_witness :
    demoFailState.versions = emptyTrainerState.versions ∧
    demoFailState.manifest = emptyTrainerState.manifest :=
  claim5_failure_frame ⟨{}⟩
    { timestamp := "t", trainOk := false, bestExists := true, resultsCsv := none }
    emptyTrainerState
    { strategy := .new, checkpoint := some "yolov8n.pt", epochs := 50 }
    ⟨[]⟩ .externalToolError demoFailState (by decide) (by decide)

/-- Claim C10: when the store is non-empty but the latest record's
checkpoint path no longer exists, `get_latest_checkpoint` returns `none`
rather than failing, and an `incremental` decision is still produced with its
checkpoint field `none` — the missing checkpoint is not detected at selection
time. -/
theorem claim10_missing_checkpoint (w : World) (cfg : Config)
    (vs : List VersionRecord) (ds : Dataset) (last : VersionRecord)
    (h : String) (stats : Stats)
    (hlast : vs.getLast? = some last)
    (hmiss : last.checkpoint_path ∉ w.existing)
    (hh : get_dataset_hash ds = .ok h)
    (hdiff : last.dataset_hash ≠ h)
    (hs : get_dataset_stats ds = .ok stats)
    (hratio : change_ratio last.dataset_stats.total_annotations
        stats.total_annotations ≤ 1 / 2) :
    get_latest_checkpoint w vs = none ∧
    determine_training_strategy w cfg vs ds =
      .ok { strategy := .incremental, checkpoint := none,
            epochs := cfg.training.incremental_epochs.getD 20 } := by
  have hglc : get_latest_checkpoint w vs = none := by
    unfold get_latest_checkpoint
    rw [hlast]
    simp [hmiss]
  refine ⟨hglc, ?_⟩
  simp only [determine_training_strategy, hh]
  rw [hlast]
  dsimp only
  rw [if_neg hdiff]
  simp only [hs]
  rw [if_neg (not_lt.mpr hratio), hglc]

/-- A stored version record whose fingerprint differs from the empty
dataset's and whose checkpoint path is nowhere on the file system. -/
def demoRecStale : VersionRecord :=
  { demoRec1 with dataset_hash := "00000000" }

set_option maxRecDepth 8000 in
/-- Witness for C10 at a concrete store, empty file system and dataset. -/
theorem claim10_missing_checkpoint_witness :
    get_latest_checkpoint ⟨[]⟩ [demoRecStale] = none ∧
    determine_training_strategy ⟨[]⟩ ⟨{}⟩ [demoRecStale] ⟨[]⟩ =
      .ok { strategy := .incremental, checkpoint := none,
            epochs := (⟨{}⟩ : Config).training.incremental_epochs.getD 20 } :=
  claim10_missing_checkpoint ⟨[]⟩ ⟨{}⟩ [demoRecStale] ⟨[]⟩ demoRecStale
    "d41d8cd9" demoStats0 (by decide) (by decide) (by decide) (by decide)
    (by decide)
    (by simp [change_ratio, demoRecStale, demoRec1, demoStats0])

set_option maxRecDepth 8000 in
/-- Claim C9 counterexample: hashing a nonexistent dataset directory (no
label files can be enumerated) succeeds with the fingerprint of the empty
byte sequence instead of failing with an `IOError`-kind error, because
`pathlib` globbing yields nothing for a missing directory. -/
theorem claim9_counterexample :
    get_dataset_hash { files := [] } = .ok "d41d8cd9" := by decide

/-- Claim C7 counterexample: a present `results.csv` lacking the `fitness`
column makes `extract_metrics` raise a `KeyError`-kind failure instead of
returning the empty metrics map. -/
theorem claim7_counterexample :
    extract_metrics (some [("epoch", [1, 2])]) = .error .keyError := by decide

/-- Claim C6: with omitted arguments, `compare_versions` fails with
`InsufficientHistoryError` when fewer than two versions are stored, and with
two or more it compares the two most recent versions. -/
theorem claim6_compare_defaults (vs : List VersionRecord) :
    (vs.length < 2 →
      compare_versions vs none none = .error .insufficientHistoryError) ∧
    (2 ≤ vs.length →
      ∃ r, compare_versions vs none none = .ok r ∧
        (∃ p, vs[vs.length - 2]? = some p ∧ r.version1 = p.version) ∧
        (∃ q, vs.getLast? = some q ∧ r.version2 = q.version)) := by
  constructor
  · intro hlt
    match vs, hlt with
    | [], _ => rfl
    | [a], _ => rfl
  · intro hge
    have hlt2 : vs.length - 2 < vs.length := by omega
    have hp : vs[vs.length - 2]? = some vs[vs.length - 2] :=
      List.getElem?_eq_getElem hlt2
    have hlt1 : vs.length - 1 < vs.length := by omega
    have hq : vs.getLast? = some vs[vs.length - 1] := by
      rw [List.getLast?_eq_getElem?, List.getElem?_eq_getElem hlt1]
    unfold compare_versions
    rw [if_pos hge, hp, hq]
    dsimp only [Option.map_some']
    obtain ⟨i1, hi1⟩ :
        ∃ i1, vs.find? (fun v => v.version = vs[vs.length - 2].version) =
          some i1 := by
      rw [← Option.isSome_iff_exists, List.find?_isSome]
      exact ⟨vs[vs.length - 2], List.getElem?_mem hp, by simp⟩
    obtain ⟨i2, hi2⟩ :
        ∃ i2, vs.find? (fun v => v.version = vs[vs.length - 1].version) =
          some i2 := by
      rw [← Option.isSome_iff_exists, List.find?_isSome]
      exact ⟨vs[vs.length - 1], List.getElem_mem hlt1, by simp⟩
    rw [hi1, hi2]
    exact ⟨_, rfl, ⟨vs[vs.length - 2], rfl, rfl⟩, ⟨vs[vs.length - 1], rfl, rfl⟩⟩

/-- A second stored version, child of `v1`, with a different fingerprint. -/
def demoRec2 : VersionRecord :=
  { demoRec1 with
    version := "v2", parent_version := some "v1",
    checkpoint_path := "models/versions/v2/best.pt",
    dataset_hash := "11111111" }

/-- Witness for C6 at both sides: the empty store fails, a two-record store
compares `v1` against `v2`. -/
theorem claim6_compare_defaults_witness :
    compare_versions [] none none = .error .insufficientHistoryError ∧
    ∃ r, compare_versions [demoRec1, demoRec2] none none = .ok r ∧
      (∃ p, [demoRec1, demoRec2][0]? = some p ∧ r.version1 = p.version) ∧
      (∃ q, [demoRec1, demoRec2].getLast? = some q ∧
        r.version2 = q.version) :=
  ⟨(claim6_compare_defaults []).1 (by decide),
   (claim6_compare_defaults [demoRec1, demoRec2]).2 (by decide)⟩

/-- `idxmax` on a non-empty series returns an in-range index holding a
maximal value. -/
theorem idxmax_spec :
    ∀ l : List ℚ, l ≠ [] →
      ∃ i, idxmax l = some i ∧ i < l.length ∧ ∀ x ∈ l, x ≤ l.getD i 0 := by
  intro l
  induction l with
  | nil => intro h; exact absurd rfl h
  | cons x xs ih =>
    intro _
    cases hxs : xs with
    | nil =>
      refine ⟨0, by simp [idxmax], by simp, ?_⟩
      intro y hy
      simp at hy
      simp [hy]
    | cons b bs =>
      rw [← hxs]
      obtain ⟨j, hj, hjlt, hmax⟩ := ih (by rw [hxs]; simp)
      by_cases hlt : x < xs.getD j 0
      · refine ⟨j + 1,
          by unfold idxmax; rw [hj]; dsimp only; rw [if_pos hlt],
          by simpa using hjlt, ?_⟩
        intro y hy
        rw [List.getD_cons_succ]
        rcases List.mem_cons.mp hy with rfl | hmem
        · exact le_of_lt hlt
        · exact hmax y hmem
      · refine ⟨0,
          by unfold idxmax; rw [hj]; dsimp only; rw [if_neg hlt],
          by simp, ?_⟩
        intro y hy
        rw [List.getD_cons_zero]
        rcases List.mem_cons.mp hy with rfl | hmem
        · exact le_refl y
        · exact le_trans (hmax y hmem) (not_lt.mp hlt)

/-- Each column access either succeeds on the stored column or fails with
`KeyError`. -/
theorem colGet_ok_or_key (df : Csv) (name : String) :
    (∃ c, df.lookup name = some c ∧ colGet df name = .ok c) ∨
    (df.lookup name = none ∧ colGet df name = .error .keyError) := by
  unfold colGet
  cases h : df.lookup name with
  | some c => exact Or.inl ⟨c, rfl, rfl⟩
  | none => exact Or.inr ⟨rfl, rfl⟩

/-- Claim C7 (amended): an absent `results.csv` yields the empty metrics
map, and a present file never does; a present file lacking the `fitness`
column fails with a `KeyError`-kind error, as does one whose (non-empty)
`fitness` column is present but which lacks any of the four metric columns;
when all columns are present and the fitness column is non-empty, the result
is the row of the first maximal fitness value (`best_epoch` is that row,
1-based). -/
theorem claim7_extract_metrics_amended (df : Csv) :
    (extract_metrics none = .ok none) ∧
    (extract_metrics (some df) ≠ .ok none) ∧
    (df.lookup "fitness" = none →
      extract_metrics (some df) = .error .keyError) ∧
    (∀ fit, df.lookup "fitness" = some fit → fit ≠ [] →
      (df.lookup "metrics/mAP50" = none ∨
        df.lookup "metrics/mAP50-95" = none ∨
        df.lookup "metrics/precision" = none ∨
        df.lookup "metrics/recall" = none) →
      extract_metrics (some df) = .error .keyError) ∧
    (∀ fit m50 m5095 prec rcl,
      df.lookup "fitness" = some fit → fit ≠ [] →
      df.lookup "metrics/mAP50" = some m50 →
      df.lookup "metrics/mAP50-95" = some m5095 →
      df.lookup "metrics/precision" = some prec →
      df.lookup "metrics/recall" = some rcl →
      ∃ i, idxmax fit = some i ∧
        extract_metrics (some df) = .ok (some
          { best_epoch := i + 1,
            mAP50 := m50.getD i 0,
            mAP50_95 := m5095.getD i 0,
            precision := prec.getD i 0,
            recallMetric := rcl.getD i 0,
            fitness := fit.getD i 0 }) ∧
        ∀ x ∈ fit, x ≤ fit.getD i 0) := by
  refine ⟨rfl, ?_, ?_, ?_, ?_⟩
  · intro hcontra
    rcases colGet_ok_or_key df "fitness" with ⟨fit, _, hfit⟩ | ⟨_, hfit⟩
    · cases hidx : idxmax fit with
      | none => simp [extract_metrics, hfit, hidx] at hcontra
      | some i =>
        rcases colGet_ok_or_key df "metrics/mAP50" with ⟨cA, _, hA⟩ | ⟨_, hA⟩ <;>
          rcases colGet_ok_or_key df "metrics/mAP50-95" with
            ⟨cB, _, hB⟩ | ⟨_, hB⟩ <;>
          rcases colGet_ok_or_key df "metrics/precision" with
            ⟨cC, _, hC⟩ | ⟨_, hC⟩ <;>
          rcases colGet_ok_or_key df "metrics/recall" with
            ⟨cD, _, hD⟩ | ⟨_, hD⟩ <;>
          simp [extract_metrics, hfit, hidx, hA, hB, hC, hD] at hcontra
    · simp [extract_metrics, hfit] at hcontra
  · intro hnone
    simp [extract_metrics, colGet, hnone]
  · intro fit hlf hne hmiss
    obtain ⟨i, hidx, _, _⟩ := idxmax_spec fit hne
    have hfit : colGet df "fitness" = .ok fit := by simp [colGet, hlf]
    rcases colGet_ok_or_key df "metrics/mAP50" with ⟨cA, hlA, hA⟩ | ⟨hlA, hA⟩ <;>
      rcases colGet_ok_or_key df "metrics/mAP50-95" with
        ⟨cB, hlB, hB⟩ | ⟨hlB, hB⟩ <;>
      rcases colGet_ok_or_key df "metrics/precision" with
        ⟨cC, hlC, hC⟩ | ⟨hlC, hC⟩ <;>
      rcases colGet_ok_or_key df "metrics/recall" with
        ⟨cD, hlD, hD⟩ | ⟨hlD, hD⟩ <;>
      simp [extract_metrics, hfit, hidx, hA, hB, hC, hD]
    rcases hmiss with h | h | h | h
    · simp [h] at hlA
    · simp [h] at hlB
    · simp [h] at hlC
    · simp [h] at hlD
  · intro fit m50 m5095 prec rcl hfit hne h50 h5095 hprec hrcl
    obtain ⟨i, hi, _, hmax⟩ := idxmax_spec fit hne
    refine ⟨i, hi, ?_, hmax⟩
    simp [extract_metrics, colGet, hfit, h50, h5095, hprec, hrcl, hi]

/-- Fitness column of the demonstration `results.csv`. -/
def demoFit : List ℚ := [1, 5, 5]

/-- A well-formed demonstration `results.csv`. -/
def demoCsv : Csv :=
  [("fitness", demoFit), ("metrics/mAP50", [0, 1, 2]),
   ("metrics/mAP50-95", [3, 4, 5]), ("metrics/precision", [6, 7, 8]),
   ("metrics/recall", [9, 10, 11])]

/-- A `results.csv` with a fitness column but missing metric columns. -/
def demoCsvPartial : Csv := [("fitness", demoFit), ("metrics/mAP50", [0, 1, 2])]

/-- Witness for C7 (amended): the absent file yields the empty map, a present
well-formed file yields a non-empty map holding the best row (best fitness
first occurs in row 1, 0-based), and a present file missing a metric column
fails with `KeyError`. -/
theorem claim7_extract_metrics_amended_witness :
    extract_metrics none = .ok none ∧
    extract_metrics (some demoCsv) ≠ .ok none ∧
    extract_metrics (some demoCsvPartial) = .error .keyError ∧
    ∃ i, idxmax demoFit = some i ∧
      extract_metrics (some demoCsv) = .ok (some
        { best_epoch := i + 1,
          mAP50 := ([0, 1, 2] : List ℚ).getD i 0,
          mAP50_95 := ([3, 4, 5] : List ℚ).getD i 0,
          precision := ([6, 7, 8] : List ℚ).getD i 0,
          recallMetric := ([9, 10, 11] : List ℚ).getD i 0,
          fitness := demoFit.getD i 0 }) ∧
      ∀ x ∈ demoFit, x ≤ demoFit.getD i 0 :=
  ⟨(claim7_extract_metrics_amended demoCsv).1,
   (claim7_extract_metrics_amended demoCsv).2.1,
   (claim7_extract_metrics_amended demoCsvPartial).2.2.2.1 demoFit rfl
     (by decide) (Or.inr (Or.inl rfl)),
   (claim7_extract_metrics_amended demoCsv).2.2.2.2 demoFit [0, 1, 2] [3, 4, 5]
     [6, 7, 8] [9, 10, 11] rfl (by decide) rfl rfl rfl rfl⟩

/-! ### Label-only dependence of the fingerprint (C8) -/

/-- `find?` can be restricted to a filtered sublist when every match
satisfies the filter (filtering preserves relative order, so the first match
is the same). -/
theorem find?_eq_find?_filter {α : Type _} (p q : α → Bool)
    (himp : ∀ a, q a = true → p a = true) :
    ∀ l : List α, l.find? q = (l.filter p).find? q := by
  intro l
  induction l with
  | nil => rfl
  | cons a as ih =>
    cases hq : q a with
    | true =>
      rw [List.find?_cons_of_pos as hq, List.filter_cons_of_pos (himp a hq),
        List.find?_cons_of_pos _ hq]
    | false =>
      rw [List.find?_cons_of_neg as (by simp [hq])]
      cases hp : p a with
      | true =>
        rw [List.filter_cons_of_pos hp,
          List.find?_cons_of_neg _ (by simp [hq]), ih]
      | false => rw [List.filter_cons_of_neg (by simp [hp]), ih]

/-- Two lists holding the same file entries (in any order, with unduplicated
paths) agree on path lookup. -/
theorem find?_path_perm (l1 l2 : List FileEntry) (hperm : l1.Perm l2)
    (hnd : (l1.map fun f => f.path).Nodup) (p : String) :
    l1.find? (fun f => f.path = p) = l2.find? (fun f => f.path = p) := by
  cases h1 : l1.find? (fun f => f.path = p) with
  | none =>
    have h2 : l2.find? (fun f => f.path = p) = none := by
      rw [List.find?_eq_none] at h1 ⊢
      intro x hx
      exact h1 x (hperm.mem_iff.mpr hx)
    rw [h2]
  | some f =>
    have hfm : f ∈ l1 := List.mem_of_find?_eq_some h1
    have hfp : f.path = p := by simpa using List.find?_some h1
    cases h2 : l2.find? (fun f => f.path = p) with
    | none =>
      rw [List.find?_eq_none] at h2
      exact absurd (by simpa using hfp) (h2 f (hperm.mem_iff.mp hfm))
    | some g =>
      have hgm : g ∈ l1 := hperm.mem_iff.mpr (List.mem_of_find?_eq_some h2)
      have hgp : g.path = p := by simpa using List.find?_some h2
      rw [List.inj_on_of_nodup_map hnd hgm hfm (by rw [hgp, hfp])]

/-- Reading a label path depends only on the label files of the directory:
any entry whose path matches a `labels/**/*.txt` path is itself a label file,
so `find?` can be restricted to the label sublist, where the two directories
agree. -/
theorem readBytes_label_eq (ds1 ds2 : Dataset)
    (hp : (ds1.files.filter fun f => isLabelTxt f.path).Perm
        (ds2.files.filter fun f => isLabelTxt f.path))
    (hnd : ((ds1.files.filter fun f => isLabelTxt f.path).map
        fun f => f.path).Nodup)
    (p : String) (hlp : isLabelTxt p = true) :
    readBytes ds1 p = readBytes ds2 p := by
  have himp : ∀ f : FileEntry,
      decide (f.path = p) = true → isLabelTxt f.path = true := by
    intro f hf
    rw [of_decide_eq_true hf]
    exact hlp
  unfold readBytes
  rw [find?_eq_find?_filter (fun f => isLabelTxt f.path)
      (fun f => f.path = p) himp ds1.files,
    find?_eq_find?_filter (fun f => isLabelTxt f.path)
      (fun f => f.path = p) himp ds2.files,
    find?_path_perm _ _ hp hnd p]

/-- `mapM` respects functions equal on the traversed elements. -/
theorem mapM_congr_mem {g1 g2 : String → Except PErr (List Nat)} :
    ∀ ps : List String, (∀ p ∈ ps, g1 p = g2 p) →
      ps.mapM g1 = ps.mapM g2 := by
  intro ps
  induction ps with
  | nil => intro _; rfl
  | cons a as ih =>
    intro hg
    rw [List.mapM_cons, List.mapM_cons, hg a (List.mem_cons_self a as),
      ih fun p hp => hg p (List.mem_cons_of_mem a hp)]

/-- Directories with the same label files (as a multiset) enumerate the same
sorted label-path list. -/
theorem labelPaths_eq_of_label_perm (ds1 ds2 : Dataset)
    (hp : (ds1.files.filter fun f => isLabelTxt f.path).Perm
        (ds2.files.filter fun f => isLabelTxt f.path)) :
    labelPaths ds1 = labelPaths ds2 :=
  List.eq_of_perm_of_sorted
    (((List.perm_insertionSort _ _).trans (hp.map _)).trans
      (List.perm_insertionSort _ _).symm)
    (List.sorted_insertionSort _ _) (List.sorted_insertionSort _ _)

/-- Every enumerated label path matches the label glob pattern. -/
theorem labelPaths_isLabelTxt (ds : Dataset) (p : String)
    (hmem : p ∈ labelPaths ds) : isLabelTxt p = true := by
  unfold labelPaths at hmem
  rw [(List.perm_insertionSort _ _).mem_iff] at hmem
  obtain ⟨f, hf, rfl⟩ := List.mem_map.mp hmem
  exact (List.mem_filter.mp hf).2

/-- Claim C8: two dataset directories whose label files (relative paths and
byte contents) coincide as a multiset receive the same fingerprint,
regardless of file-system enumeration order, timestamps, or any non-label
files (such as `images/train` contents), because exactly the label files are
visited in sorted path order, concatenated and hashed. -/
theorem claim8_hash_order_independent (ds1 ds2 : Dataset)
    (hp : (ds1.files.filter fun f => isLabelTxt f.path).Perm
        (ds2.files.filter fun f => isLabelTxt f.path))
    (hnd : ((ds1.files.filter fun f => isLabelTxt f.path).map
        fun f => f.path).Nodup) :
    get_dataset_hash ds1 = get_dataset_hash ds2 := by
  unfold get_dataset_hash
  rw [labelPaths_eq_of_label_perm ds1 ds2 hp,
    mapM_congr_mem (labelPaths ds2) fun p hmem =>
      readBytes_label_eq ds1 ds2 hp hnd p (labelPaths_isLabelTxt ds2 p hmem)]

/-- A first label file. -/
def demoFileA : FileEntry := { path := "labels/train/a.txt", content := "0 1 2 3 4\n" }

/-- A second label file. -/
def demoFileB : FileEntry := { path := "labels/train/b.txt", content := "1 5 6 7 8\n" }

/-- An image file present only in the first directory. -/
def demoImgC : FileEntry := { path := "images/train/c.jpg", content := "c" }

/-- An image file present only in the second directory. -/
def demoImgD : FileEntry := { path := "images/train/d.jpg", content := "d" }

/-- Witness for C8: the same two label files, enumerated in either order and
surrounded by different image files, hash identically. -/
theorem claim8_hash_order_independent_witness :
    get_dataset_hash ⟨[demoFileA, demoFileB, demoImgC]⟩ =
      get_dataset_hash ⟨[demoFileB, demoImgD, demoFileA]⟩ :=
  claim8_hash_order_independent ⟨[demoFileA, demoFileB, demoImgC]⟩
    ⟨[demoFileB, demoImgD, demoFileA]⟩ (by decide) (by decide)

/-! ### Unreadable label files (C9, amended) -/

/-- `readBytes` only ever fails with the `IOError` kind. -/
theorem readBytes_ok_or_io (ds : Dataset) (p : String) :
    (∃ bs, readBytes ds p = .ok bs) ∨ readBytes ds p = .error .ioError := by
  unfold readBytes
  cases ds.files.find? (fun f => f.path = p) with
  | none => exact Or.inr rfl
  | some f =>
    cases hr : f.readable with
    | false => exact Or.inr (by simp [hr])
    | true => exact Or.inl ⟨strBytes f.content, by simp [hr]⟩

/-- If any listed path fails to read, the whole read loop fails with
`IOError`. -/
theorem mapM_readBytes_error (ds : Dataset) :
    ∀ (ps : List String) (p : String), p ∈ ps →
      readBytes ds p = .error .ioError →
      ps.mapM (readBytes ds) = .error .ioError := by
  intro ps
  induction ps with
  | nil => intro p hp; cases hp
  | cons a as ih =>
    intro p hp herr
    rw [List.mapM_cons]
    rcases readBytes_ok_or_io ds a with ⟨bs, hok⟩ | hio
    · rcases List.mem_cons.mp hp with rfl | hmem
      · rw [hok] at herr
        cases herr
      · rw [hok, ih p hmem herr]
        try rfl
    · rw [hio]
      try rfl

/-- An unreadable label file is found by the read of its own path. -/
theorem readBytes_unreadable (ds : Dataset) (f : FileEntry)
    (hf : f ∈ ds.files) (hr : f.readable = false)
    (hnd : (ds.files.map fun x => x.path).Nodup) :
    readBytes ds f.path = .error .ioError := by
  unfold readBytes
  cases h : ds.files.find? (fun x => x.path = f.path) with
  | none => rfl
  | some g =>
    have hg : g = f :=
      List.inj_on_of_nodup_map hnd (List.mem_of_find?_eq_some h) hf
        (by simpa using List.find?_some h)
    rw [hg]
    dsimp only
    rw [hr]
    try rfl

/-- Claim C9 (amended): if any label file matched under `labels/` is
unreadable, `get_dataset_hash` fails with an `IOError`-kind error (and, being
a pure read, has no side effects); a nonexistent or empty directory, however,
yields the empty-content fingerprint instead of failing (see the
counterexample). -/
theorem claim9_hash_unreadable_file (ds : Dataset) (f : FileEntry)
    (hf : f ∈ ds.files) (hl : isLabelTxt f.path = true)
    (hr : f.readable = false)
    (hnd : (ds.files.map fun x => x.path).Nodup) :
    get_dataset_hash ds = .error .ioError := by
  unfold get_dataset_hash
  have hmem : f.path ∈ labelPaths ds := by
    unfold labelPaths
    rw [(List.perm_insertionSort _ _).mem_iff]
    exact List.mem_map.mpr ⟨f, List.mem_filter.mpr ⟨hf, hl⟩, rfl⟩
  rw [mapM_readBytes_error ds (labelPaths ds) f.path hmem
    (readBytes_unreadable ds f hf hr hnd)]

/-- An unreadable label file. -/
def demoFileBad : FileEntry :=
  { path := "labels/train/bad.txt", content := "", readable := false }

/-- Witness for C9 (amended): a dataset with one unreadable label file fails
to hash with `IOError`. -/
theorem claim9_hash_unreadable_file_witness :
    get_dataset_hash ⟨[demoFileA, demoFileBad]⟩ = .error .ioError :=
  claim9_hash_unreadable_file ⟨[demoFileA, demoFileBad]⟩ demoFileBad
    (by decide) (by decide) (by decide) (by decide)

end IncrementalTrain
